import Mathlib

/-!
# Verification of the ScamRadar detection pipeline

Shallow embedding of the core of the ScamRadar backend
(`backend/app/services` and `backend/app/routers`) together with proofs
about the behaviour its specification claims.

Modelling conventions:
* Python floats are modelled as rationals (`ℚ`); machine integers
  (wei values, gas, timestamps) are unbounded in CPython and are
  modelled as `ℤ`.
* `math.log1p` and `np.sqrt` are irrational on `ℚ`, so every definition
  that needs them takes the function as an explicit parameter; concrete
  evaluations instantiate it with an executable rational stand-in.
* Network I/O is modelled by oracles: a function from a request key to
  the upstream's response.  Dict-shaped records are structures whose
  field defaults mirror the `dict.get(key, 0)` defaults of the source.
-/

namespace ScamRadar

/-! ## Numpy-style numeric helpers -/

/-- Numpy's `np.mean` of a list of rationals.  All call sites in the source guard
against the empty list, on which numpy would produce `nan`; the guard value
here is 0, matching the `if xs else 0` pattern used at those call sites. -/
def npMean (xs : List ℚ) : ℚ :=
  if xs.length = 0 then 0 else xs.sum / xs.length

/-- Population variance, the square of `np.std` (numpy default `ddof = 0`). -/
def npVar (xs : List ℚ) : ℚ :=
  if xs.length = 0 then 0
  else ((xs.map (fun x => (x - npMean xs) ^ 2)).sum) / xs.length

/-- Numpy's `np.clip(x, lo, hi) = minimum(maximum(x, lo), hi)`. -/
def npClip (lo hi x : ℚ) : ℚ := min hi (max lo x)

/-- Numpy's `np.max` of a list (call sites guard against the empty list). -/
def npMax (xs : List ℚ) : ℚ := xs.foldr max (xs.headD 0)

/-- Executable rational stand-in for `np.sqrt`, exact on rationals whose
numerator and denominator are perfect squares.  Used to instantiate the
abstract square-root parameter in concrete evaluations. -/
def ratSqrt (q : ℚ) : ℚ :=
  if q ≤ 0 then 0 else (Nat.sqrt q.num.natAbs : ℚ) / (Nat.sqrt q.den : ℚ)

/-! ## `model_loader.scale_features`

The training-statistics artifact is `{mean: float[n], std: float[n]}` per
task (its two arrays have equal length by construction), modelled as the
zipped list of `(mean, std)` pairs; the statistics file itself is an
optional association list keyed by the task name. -/

/-- Python's `stats and task in stats` followed by `stats[task]`: `None`, an empty
dict and a missing key all fall through to the fallback. -/
def lookupStats (stats : Option (List (String × List (ℚ × ℚ)))) (task : String) :
    Option (List (ℚ × ℚ)) :=
  match stats with
  | none => none
  | some d => d.lookup task

/-- The log-compression step of `scale_features`: any value strictly greater
than `1e10` is replaced by `log1p` of it (the masked assignment
`features_processed[large_mask] = np.log1p(...)`). -/
def logCompress (log1p : ℚ → ℚ) (x : ℚ) : ℚ :=
  if x > 10 ^ 10 then log1p x else x

/-- Numpy's `np.where(std > 1e-8, std, 1.0)` applied to one entry. -/
def stdSafe (s : ℚ) : ℚ := if s > 1 / 10 ^ 8 then s else 1

/-- Standardization of one row with the training statistics:
`(x - mean) / std_safe` elementwise. -/
def standardizeRow (ms : List (ℚ × ℚ)) (row : List ℚ) : List ℚ :=
  (row.zip ms).map fun p => (p.1 - p.2.1) / stdSafe p.2.2

/-- Column `j` of a row-major matrix (`features_processed[:, j]`). -/
def colAt (rows : List (List ℚ)) (j : ℕ) : List ℚ :=
  rows.map fun r => r.getD j 0

/-- One iteration of the fallback clipping loop of `scale_features`: the
column is clipped to `mean ± 3·std` only when its maximum is positive and
its standard deviation is positive (the `if col_data.max() > 0 and
np.std(col_data) > 0` guard, with the redundant inner `if std_val > 0`). -/
def clipColumn (sqrt : ℚ → ℚ) (col : List ℚ) : List ℚ :=
  if npMax col > 0 ∧ sqrt (npVar col) > 0 then
    let meanVal := npMean col
    let stdVal := sqrt (npVar col)
    if stdVal > 0 then
      col.map (npClip (meanVal - 3 * stdVal) (meanVal + 3 * stdVal))
    else col
  else col

/-- Standardize a matrix given as a list of (already clipped) feature
columns, using each column's own mean and `std_safe`, returning the
row-major result (`(features_processed - mean) / std`). -/
def standardizeCols (sqrt : ℚ → ℚ) (cols : List (List ℚ)) (nRows n : ℕ) :
    List (List ℚ) :=
  let means := cols.map npMean
  let stds := cols.map fun c => stdSafe (sqrt (npVar c))
  (List.range nRows).map fun i =>
    (List.range n).map fun j =>
      (((cols.getD j []).getD i 0) - means.getD j 0) / stds.getD j 1

/-- The multi-sample fallback path of `scale_features`: per-column
conditional clipping, then standardization with the batch's own
(post-clip) sample mean/std. -/
def fallbackMulti (sqrt : ℚ → ℚ) (rows : List (List ℚ)) : List (List ℚ) :=
  let n := (rows.headD []).length
  let cols := (List.range n).map fun j => clipColumn sqrt (colAt rows j)
  standardizeCols sqrt cols rows.length n

/-- Shallow embedding of `scale_features` (model_loader.py) on a 2-D input.
`log1p` and `sqrt` are abstract parameters (they have no rational values). -/
def scaleFeaturesRows (log1p sqrt : ℚ → ℚ)
    (stats : Option (List (String × List (ℚ × ℚ)))) (task : String)
    (rows : List (List ℚ)) : List (List ℚ) :=
  let proc := rows.map fun r => r.map (logCompress log1p)
  let nFeatures := (proc.headD []).length
  let fallback :=
    if proc.length = 1 then proc.map fun r => r.map (npClip (-5) 15)
    else fallbackMulti sqrt proc
  match lookupStats stats task with
  | some ms =>
    if ms.length = nFeatures then proc.map (standardizeRow ms) else fallback
  | none => fallback

/-- Function `scale_features` on a 1-D vector: `reshape(1, -1)`, process, `flatten()`. -/
def scale_features (log1p sqrt : ℚ → ℚ)
    (stats : Option (List (String × List (ℚ × ℚ)))) (task : String)
    (v : List ℚ) : List ℚ :=
  (scaleFeaturesRows log1p sqrt stats task [v]).headD []

/-! ### The claimed description of `scale_features` (C1)

`specScaleClaimC1` transcribes the claim's wording: in the multi-sample
fallback every feature column is unconditionally clipped to ±3 sample
standard deviations.  `specScaleAmendedC1` is the amended description:
clipping applies only to columns whose maximum is positive and whose
standard deviation is positive. -/

/-- Multi-sample fallback as the claim words it: every column is clipped to
`mean ± 3·std`, then the batch is standardized with its own mean/std under
the zero-std guard. -/
def specFallbackMultiClaim (sqrt : ℚ → ℚ) (rows : List (List ℚ)) :
    List (List ℚ) :=
  let n := (rows.headD []).length
  let cols := (List.range n).map fun j =>
    let c := colAt rows j
    c.map (npClip (npMean c - 3 * sqrt (npVar c)) (npMean c + 3 * sqrt (npVar c)))
  standardizeCols sqrt cols rows.length n

/-- Multi-sample fallback as amended: a column is clipped to ±3 standard
deviations only when its maximum is positive and its standard deviation is
positive; other columns pass to standardization unclipped. -/
def specFallbackMultiAmended (sqrt : ℚ → ℚ) (rows : List (List ℚ)) :
    List (List ℚ) :=
  let n := (rows.headD []).length
  let cols := (List.range n).map fun j =>
    let c := colAt rows j
    if npMax c > 0 ∧ sqrt (npVar c) > 0 then
      c.map (npClip (npMean c - 3 * sqrt (npVar c)) (npMean c + 3 * sqrt (npVar c)))
    else c
  standardizeCols sqrt cols rows.length n

/-- The precedence C1 claims for `scale_features`, parameterized by the
description of the multi-sample fallback: log-compress first, then the
training-statistics path when the arrays match the width, otherwise
clip-only for a single sample and the sample-statistics fallback for a
batch. -/
def specScaleWith (fb : (ℚ → ℚ) → List (List ℚ) → List (List ℚ))
    (log1p sqrt : ℚ → ℚ) (stats : Option (List (String × List (ℚ × ℚ))))
    (task : String) (rows : List (List ℚ)) : List (List ℚ) :=
  let proc := rows.map fun r => r.map (logCompress log1p)
  match lookupStats stats task with
  | some ms =>
    if ms.length = (proc.headD []).length then proc.map (standardizeRow ms)
    else if proc.length = 1 then proc.map fun r => r.map (npClip (-5) 15)
    else fb sqrt proc
  | none =>
    if proc.length = 1 then proc.map fun r => r.map (npClip (-5) 15)
    else fb sqrt proc

/-- C1's description of `scale_features`, verbatim. -/
def specScaleClaimC1 (log1p sqrt : ℚ → ℚ)
    (stats : Option (List (String × List (ℚ × ℚ)))) (task : String)
    (rows : List (List ℚ)) : List (List ℚ) :=
  specScaleWith specFallbackMultiClaim log1p sqrt stats task rows

/-- C1's description of `scale_features`, amended at the clipping guard. -/
def specScaleAmendedC1 (log1p sqrt : ℚ → ℚ)
    (stats : Option (List (String × List (ℚ × ℚ)))) (task : String)
    (rows : List (List ℚ)) : List (List ℚ) :=
  specScaleWith specFallbackMultiAmended log1p sqrt stats task rows

/-- The 12-sample single-feature batch separating the code from C1's
wording: all entries are non-positive, so the code's `col_data.max() > 0`
guard skips clipping, while the claimed unconditional ±3σ clip fires on the
outlier −69. -/
def c1Rows : List (List ℚ) :=
  List.replicate 8 [(0 : ℚ)] ++ List.replicate 3 [(-1 : ℚ)] ++ [[(-69 : ℚ)]]

/-! ### C1 theorems -/

lemma clipColumn_eq_amended (sqrt : ℚ → ℚ) (c : List ℚ) :
    clipColumn sqrt c =
      if npMax c > 0 ∧ sqrt (npVar c) > 0 then
        c.map (npClip (npMean c - 3 * sqrt (npVar c)) (npMean c + 3 * sqrt (npVar c)))
      else c := by
  by_cases h : npMax c > 0 ∧ sqrt (npVar c) > 0
  · simp only [clipColumn, if_pos h, if_pos h.2]
  · simp only [clipColumn, if_neg h]

lemma fallbackMulti_eq_amended (sqrt : ℚ → ℚ) (rows : List (List ℚ)) :
    fallbackMulti sqrt rows = specFallbackMultiAmended sqrt rows := by
  unfold fallbackMulti specFallbackMultiAmended
  simp only [clipColumn_eq_amended]

lemma logCompress_id_eq : logCompress id = id := by
  funext x; unfold logCompress; split <;> rfl

lemma scaleFeaturesRows_none_multi (log1p sqrt : ℚ → ℚ) (task : String)
    (rows : List (List ℚ)) (h : (rows.map fun r => r.map (logCompress log1p)).length ≠ 1) :
    scaleFeaturesRows log1p sqrt none task rows =
      fallbackMulti sqrt (rows.map fun r => r.map (logCompress log1p)) := by
  unfold scaleFeaturesRows lookupStats
  simp only [if_neg h]

lemma specScaleClaim_none_multi (log1p sqrt : ℚ → ℚ) (task : String)
    (rows : List (List ℚ)) (h : (rows.map fun r => r.map (logCompress log1p)).length ≠ 1) :
    specScaleClaimC1 log1p sqrt none task rows =
      specFallbackMultiClaim sqrt (rows.map fun r => r.map (logCompress log1p)) := by
  unfold specScaleClaimC1 specScaleWith lookupStats
  simp only [if_neg h]

lemma fallbackMulti_one_col (sqrt : ℚ → ℚ) (rows : List (List ℚ))
    (h : (rows.headD []).length = 1) :
    fallbackMulti sqrt rows =
      standardizeCols sqrt [clipColumn sqrt (colAt rows 0)] rows.length 1 := by
  unfold fallbackMulti
  rw [h]
  simp [List.range_succ]

lemma specFallbackClaim_one_col (sqrt : ℚ → ℚ) (rows : List (List ℚ))
    (h : (rows.headD []).length = 1) :
    specFallbackMultiClaim sqrt rows =
      standardizeCols sqrt
        [(colAt rows 0).map
          (npClip (npMean (colAt rows 0) - 3 * sqrt (npVar (colAt rows 0)))
            (npMean (colAt rows 0) + 3 * sqrt (npVar (colAt rows 0))))]
        rows.length 1 := by
  unfold specFallbackMultiClaim
  rw [h]
  simp [List.range_succ]

lemma standardizeCols_one (sqrt : ℚ → ℚ) (c : List ℚ) (nRows : ℕ) :
    standardizeCols sqrt [c] nRows 1 =
      (List.range nRows).map
        (fun i => [(c.getD i 0 - npMean c) / stdSafe (sqrt (npVar c))]) := by
  unfold standardizeCols
  apply List.map_congr_left
  intro a _
  have h1 : List.range 1 = [0] := rfl
  rw [h1]
  simp

/-- The single feature column of `c1Rows`. -/
def c1col : List ℚ := [0, 0, 0, 0, 0, 0, 0, 0, -1, -1, -1, -69]

lemma c1_proc : c1Rows.map (fun r => r.map (logCompress id)) = c1Rows := by
  simp [logCompress_id_eq]

lemma c1_colAt : colAt c1Rows 0 = c1col := by
  norm_num [c1Rows, colAt, c1col, List.replicate]

/-- The C1 column after the claimed unconditional ±3σ clip (−69 ↦ −63). -/
def c1clipped : List ℚ := [0, 0, 0, 0, 0, 0, 0, 0, -1, -1, -1, -63]

lemma c1_code_val : scaleFeaturesRows id ratSqrt none "account" c1Rows =
    [[6/19], [6/19], [6/19], [6/19], [6/19], [6/19], [6/19], [6/19],
     [5/19], [5/19], [5/19], [-63/19]] := by
  have hmean : npMean c1col = -6 := by norm_num [npMean, c1col]
  have hvar : npVar c1col = 361 := by norm_num [npVar, npMean, c1col]
  rw [scaleFeaturesRows_none_multi]
  · rw [c1_proc, fallbackMulti_one_col, c1_colAt]
    · have hmax : npMax c1col = 0 := by norm_num [npMax, c1col]
      have hclip : clipColumn ratSqrt c1col = c1col := by
        rw [clipColumn_eq_amended, if_neg]
        rw [hmax]
        simp
      rw [hclip, standardizeCols_one, hmean, hvar]
      have hsq : ratSqrt 361 = 19 := by norm_num [ratSqrt]
      rw [hsq]
      have hss : stdSafe (19 : ℚ) = 19 := by norm_num [stdSafe]
      rw [hss]
      norm_num [c1Rows, c1col, List.replicate, List.range_succ]
    · norm_num [c1Rows, List.replicate]
  · rw [c1_proc]
    norm_num [c1Rows, List.replicate]

lemma c1_spec_val : specScaleClaimC1 id ratSqrt none "account" c1Rows =
    [[11/34], [11/34], [11/34], [11/34], [11/34], [11/34], [11/34], [11/34],
     [9/34], [9/34], [9/34], [-115/34]] := by
  have hmean : npMean c1col = -6 := by norm_num [npMean, c1col]
  have hvar : npVar c1col = 361 := by norm_num [npVar, npMean, c1col]
  rw [specScaleClaim_none_multi]
  · rw [c1_proc, specFallbackClaim_one_col, c1_colAt]
    · have hclipmap : c1col.map
          (npClip (npMean c1col - 3 * ratSqrt (npVar c1col))
            (npMean c1col + 3 * ratSqrt (npVar c1col))) = c1clipped := by
        rw [hmean, hvar]
        have hsq : ratSqrt 361 = 19 := by norm_num [ratSqrt]
        rw [hsq]
        norm_num [npClip, c1col, c1clipped]
      rw [hclipmap, standardizeCols_one]
      have hmean2 : npMean c1clipped = -11/2 := by norm_num [npMean, c1clipped]
      have hvar2 : npVar c1clipped = 1203/4 := by norm_num [npVar, npMean, c1clipped]
      rw [hmean2, hvar2]
      have hsq2 : ratSqrt (1203/4) = 17 := by norm_num [ratSqrt]
      rw [hsq2]
      have hss : stdSafe (17 : ℚ) = 17 := by norm_num [stdSafe]
      rw [hss]
      norm_num [c1Rows, c1clipped, List.replicate, List.range_succ]
    · norm_num [c1Rows, List.replicate]
  · rw [c1_proc]
    norm_num [c1Rows, List.replicate]

/-- C1 (counterexample): on a 12-sample batch whose single feature column is
all non-positive with the outlier −69, `scale_features` (no statistics, so
the multi-sample fallback runs) does not clip the column — its
`col_data.max() > 0` guard fails — while the claimed unconditional ±3σ clip
changes the result.  The square-root parameter is instantiated with
`ratSqrt`, which is exact on the pre-clip variance 361 of that column, so
the divergence matches the floating-point execution of the source. -/
theorem claim_C1_counterexample :
    scaleFeaturesRows id ratSqrt none "account" c1Rows ≠
      specScaleClaimC1 id ratSqrt none "account" c1Rows := by
  rw [c1_code_val, c1_spec_val]
  intro h
  have h0 := congrArg (fun l => List.getD l 0 []) h
  norm_num at h0

/-- C1 (amended): `scale_features` follows the claimed precedence —
log-compression of values above `1e10` first, then standardization with the
training statistics when their width matches, otherwise clip-only to
[−5, 15] for a single sample and ±3σ-clip-then-standardize for a batch —
except that in the batch fallback a feature column is clipped only when its
maximum is positive and its standard deviation is positive; columns of
non-positive values are standardized unclipped.  No path is partial: the
function is total on all inputs. -/
theorem claim_C1_amended (log1p sqrt : ℚ → ℚ)
    (stats : Option (List (String × List (ℚ × ℚ)))) (task : String)
    (rows : List (List ℚ)) (v : List ℚ) :
    scaleFeaturesRows log1p sqrt stats task rows =
      specScaleAmendedC1 log1p sqrt stats task rows ∧
    scale_features log1p sqrt stats task v =
      (specScaleAmendedC1 log1p sqrt stats task [v]).headD [] := by
  have main : ∀ rs, scaleFeaturesRows log1p sqrt stats task rs =
      specScaleAmendedC1 log1p sqrt stats task rs := by
    intro rs
    unfold scaleFeaturesRows specScaleAmendedC1 specScaleWith
    simp only [fallbackMulti_eq_amended]
  exact ⟨main rows, by rw [scale_features, main [v]]⟩

/-! ### C5 theorems -/

lemma standardizeRow_roundtrip (ms : List (ℚ × ℚ)) (v : List ℚ)
    (hlen : ms.length = v.length) (hstd : ∀ p ∈ ms, 1 / 10 ^ 8 < p.2) :
    List.zipWith (fun y (p : ℚ × ℚ) => y * p.2 + p.1)
      (standardizeRow ms v) ms = v := by
  induction ms generalizing v with
  | nil =>
    cases v with
    | nil => rfl
    | cons x v' => simp at hlen
  | cons m ms' ih =>
    cases v with
    | nil => simp at hlen
    | cons x v' =>
      have hm := hstd m (List.mem_cons_self m ms')
      have hrest : ∀ p ∈ ms', 1 / 10 ^ 8 < p.2 :=
        fun p hp => hstd p (List.mem_cons_of_mem m hp)
      have hlen' : ms'.length = v'.length := by simpa using hlen
      have hsafe : stdSafe m.2 = m.2 := by unfold stdSafe; rw [if_pos hm]
      have hne : m.2 ≠ 0 := by positivity
      simp only [standardizeRow, List.zip_cons_cons, List.map_cons, List.zipWith_cons_cons]
      rw [hsafe, div_mul_cancel₀ _ hne, sub_add_cancel]
      exact congrArg (x :: ·) (ih v' hlen' hrest)

lemma logCompress_small (log1p : ℚ → ℚ) (v : List ℚ)
    (hsmall : ∀ x ∈ v, x ≤ 10 ^ 10) : v.map (logCompress log1p) = v := by
  induction v with
  | nil => rfl
  | cons x v' ih =>
    have hx : logCompress log1p x = x := by
      unfold logCompress
      rw [if_neg (not_lt.mpr (hsmall x (List.mem_cons_self x v')))]
    have ih' := ih fun y hy => hsmall y (List.mem_cons_of_mem x hy)
    simp [hx, ih']

/-- C5 (counterexample): with the training statistics `mean = [0]`,
`std = [0]` for the task and the raw vector `[1]` (no element exceeds
`1e10`), the zero std is replaced by 1 inside `scale_features`, so the
round-trip `scale_features(v) * std + mean` returns `[0] ≠ [1]` — off by 1,
beyond any floating tolerance. -/
theorem claim_C5_counterexample :
    List.zipWith (fun y (p : ℚ × ℚ) => y * p.2 + p.1)
      (scale_features id ratSqrt (some [("account", [((0 : ℚ), (0 : ℚ))])])
        "account" [1])
      [((0 : ℚ), (0 : ℚ))] ≠ [(1 : ℚ)] := by
  have h : scale_features id ratSqrt (some [("account", [((0 : ℚ), (0 : ℚ))])])
      "account" [1] = [1] := by
    unfold scale_features scaleFeaturesRows lookupStats
    norm_num [logCompress_id_eq, List.lookup, standardizeRow, stdSafe]
  rw [h]
  norm_num

/-- C5 (amended): the round-trip holds whenever, in addition, every
per-feature training std exceeds the `1e-8` guard (so none is replaced
by 1): for a raw vector with no element above `1e10` and matching-length
statistics, `scale_features(v) * std + mean` equals `v` — exactly, in the
rational model. -/
theorem claim_C5_amended (log1p sqrt : ℚ → ℚ)
    (stats : Option (List (String × List (ℚ × ℚ)))) (task : String)
    (v : List ℚ) (ms : List (ℚ × ℚ))
    (hms : lookupStats stats task = some ms)
    (hlen : ms.length = v.length)
    (hsmall : ∀ x ∈ v, x ≤ 10 ^ 10)
    (hstd : ∀ p ∈ ms, 1 / 10 ^ 8 < p.2) :
    List.zipWith (fun y (p : ℚ × ℚ) => y * p.2 + p.1)
      (scale_features log1p sqrt stats task v) ms = v := by
  have hval : scale_features log1p sqrt stats task v = standardizeRow ms v := by
    unfold scale_features scaleFeaturesRows
    rw [hms]
    simp only [List.map_cons, List.map_nil, logCompress_small log1p v hsmall,
      List.headD_cons, List.length_cons]
    rw [if_pos (by simpa using hlen)]
    simp
  rw [hval]
  exact standardizeRow_roundtrip ms v hlen hstd

/-- C5 witness: the amended round-trip at `v = [3, 5]`,
`mean = [1, −1]`, `std = [2, 4]`. -/
theorem claim_C5_witness :
    List.zipWith (fun y (p : ℚ × ℚ) => y * p.2 + p.1)
      (scale_features id ratSqrt
        (some [("transaction", [((1 : ℚ), (2 : ℚ)), ((-1 : ℚ), (4 : ℚ))])])
        "transaction" [3, 5])
      [((1 : ℚ), (2 : ℚ)), ((-1 : ℚ), (4 : ℚ))] = [3, 5] :=
  claim_C5_amended id ratSqrt
    (some [("transaction", [((1 : ℚ), (2 : ℚ)), ((-1 : ℚ), (4 : ℚ))])])
    "transaction" [3, 5] [((1 : ℚ), (2 : ℚ)), ((-1 : ℚ), (4 : ℚ))]
    (by simp [lookupStats, List.lookup]) (by norm_num)
    (by norm_num) (by norm_num)


/-! ### C10: `scale_features` does not mutate its argument

Heap-level rendering of `scale_features`: `caller` holds the contents of
the array the caller passed in, `work` holds `features_processed`.  The
function's first statement is `features_processed = features.copy()`, so
the two start equal but are distinct objects, and the only in-place numpy
writes in the body — the masked `log1p` assignment and the per-column clip
assignments of the fallback loop — target `work`. -/

structure ScaleHeap where
  caller : List (List ℚ)
  work : List (List ℚ)

/-- Assignment `features_processed[large_mask] = np.log1p(features_processed[large_mask])`:
in-place masked write to the copy. -/
def heapLogAssign (log1p : ℚ → ℚ) (h : ScaleHeap) : ScaleHeap :=
  { h with work := h.work.map fun r => r.map (logCompress log1p) }

/-- Assignment `features_processed[:, i] = np.clip(col_data, lower, upper)` for every
column `i` of the fallback loop: the work array rebuilt row-major from its
conditionally clipped columns. -/
def heapClipAssign (sqrt : ℚ → ℚ) (h : ScaleHeap) : ScaleHeap :=
  let n := (h.work.headD []).length
  let cols := (List.range n).map fun j => clipColumn sqrt (colAt h.work j)
  { h with
    work := (List.range h.work.length).map fun i =>
      (List.range n).map fun j => (cols.getD j []).getD i 0 }

/-- Function `scale_features` with the in-place writes made explicit: the result of
the call together with the final heap. -/
def scaleFeaturesHeap (log1p sqrt : ℚ → ℚ)
    (stats : Option (List (String × List (ℚ × ℚ)))) (task : String)
    (input : List (List ℚ)) : List (List ℚ) × ScaleHeap :=
  let h0 : ScaleHeap := { caller := input, work := input }
  let h1 := heapLogAssign log1p h0
  let nFeatures := (h1.work.headD []).length
  match lookupStats stats task with
  | some ms =>
    if ms.length = nFeatures then (h1.work.map (standardizeRow ms), h1)
    else if h1.work.length = 1 then
      (h1.work.map fun r => r.map (npClip (-5) 15), h1)
    else
      let h2 := heapClipAssign sqrt h1
      (standardizeCols sqrt ((List.range nFeatures).map fun j => colAt h2.work j)
        h2.work.length nFeatures, h2)
  | none =>
    if h1.work.length = 1 then
      (h1.work.map fun r => r.map (npClip (-5) 15), h1)
    else
      let h2 := heapClipAssign sqrt h1
      (standardizeCols sqrt ((List.range nFeatures).map fun j => colAt h2.work j)
        h2.work.length nFeatures, h2)

lemma getD_map_range {α : Type} (m : ℕ) (f : ℕ → α) (d : α) (j : ℕ)
    (hj : j < m) : ((List.range m).map f).getD j d = f j := by
  rw [List.getD_eq_getElem?_getD, List.getElem?_map, List.getElem?_range hj]
  rfl

lemma range_map_getD (c : List ℚ) :
    (List.range c.length).map (fun i => c.getD i 0) = c := by
  apply List.ext_getElem
  · simp
  · intro i h1 h2
    simp only [List.getElem_map, List.getElem_range]
    rw [List.getD_eq_getElem?_getD, List.getElem?_eq_getElem h2]
    rfl

lemma clipColumn_length (sqrt : ℚ → ℚ) (c : List ℚ) :
    (clipColumn sqrt c).length = c.length := by
  rw [clipColumn_eq_amended]
  split
  · rw [List.length_map]
  · rfl

lemma colAt_length (rows : List (List ℚ)) (j : ℕ) :
    (colAt rows j).length = rows.length := by
  unfold colAt
  rw [List.length_map]

lemma heapClip_work_length (sqrt : ℚ → ℚ) (h : ScaleHeap) :
    (heapClipAssign sqrt h).work.length = h.work.length := by
  unfold heapClipAssign
  simp

lemma colAt_heapClip (sqrt : ℚ → ℚ) (h : ScaleHeap) (j : ℕ)
    (hj : j < (h.work.headD []).length) :
    colAt (heapClipAssign sqrt h).work j =
      clipColumn sqrt (colAt h.work j) := by
  unfold heapClipAssign colAt
  simp only [List.map_map]
  have hmap : ∀ i ∈ List.range h.work.length,
      ((fun r => r.getD j 0) ∘ fun i =>
        (List.range ((h.work.headD []).length)).map fun j0 =>
          (((List.range ((h.work.headD []).length)).map fun j1 =>
            clipColumn sqrt (h.work.map fun r => r.getD j1 0)).getD j0 []).getD i 0) i =
      (clipColumn sqrt (h.work.map fun r => r.getD j 0)).getD i 0 := by
    intro i _
    simp only [Function.comp_apply]
    rw [getD_map_range _ _ _ j hj]
    rw [getD_map_range _ _ _ j hj]
  rw [List.map_congr_left hmap]
  have hlen : (clipColumn sqrt (h.work.map fun r => r.getD j 0)).length =
      h.work.length := by
    rw [clipColumn_length, List.length_map]
  rw [← hlen]
  exact range_map_getD _

/-- C10: `scale_features` never mutates its argument — on every path
(training-statistics scaling, single-sample clipping, multi-sample
fallback, log-compression) the caller's array holds the same elements
after the call, and the heap-level rendering computes the same result as
the pure embedding. -/
theorem claim_C10_no_mutation (log1p sqrt : ℚ → ℚ)
    (stats : Option (List (String × List (ℚ × ℚ)))) (task : String)
    (input : List (List ℚ)) :
    (scaleFeaturesHeap log1p sqrt stats task input).2.caller = input ∧
    (scaleFeaturesHeap log1p sqrt stats task input).1 =
      scaleFeaturesRows log1p sqrt stats task input := by
  have hfb : standardizeCols sqrt
      ((List.range ((input.map fun r => r.map (logCompress log1p)).headD []).length).map
        fun j => colAt (heapClipAssign sqrt
          { caller := input, work := input.map fun r => r.map (logCompress log1p) }).work j)
      (heapClipAssign sqrt
        { caller := input, work := input.map fun r => r.map (logCompress log1p) }).work.length
      ((input.map fun r => r.map (logCompress log1p)).headD []).length =
      fallbackMulti sqrt (input.map fun r => r.map (logCompress log1p)) := by
    unfold fallbackMulti
    rw [heapClip_work_length]
    congr 1
    apply List.map_congr_left
    intro j hj
    rw [List.mem_range] at hj
    exact colAt_heapClip sqrt _ j hj
  constructor
  · unfold scaleFeaturesHeap heapLogAssign heapClipAssign
    cases lookupStats stats task with
    | none => dsimp only; split_ifs <;> rfl
    | some ms => dsimp only; split_ifs <;> rfl
  · unfold scaleFeaturesHeap scaleFeaturesRows heapLogAssign
    cases lookupStats stats task with
    | none =>
      dsimp only
      split_ifs with h1
      · rfl
      · exact hfb
    | some ms =>
      dsimp only
      split_ifs with h1 h2
      · rfl
      · rfl
      · exact hfb


/-! ## Executable string helpers

Python's `str.lower()` / `str.upper()` / `str.startswith` on the ASCII
data this pipeline handles (hex addresses, currency codes, task names),
defined over the character list of the string so that concrete instances
evaluate inside the kernel. -/

/-- ASCII lower-casing of one character. -/
def lowerChar (c : Char) : Char :=
  if 65 ≤ c.toNat ∧ c.toNat ≤ 90 then Char.ofNat (c.toNat + 32) else c

/-- ASCII upper-casing of one character. -/
def upperChar (c : Char) : Char :=
  if 97 ≤ c.toNat ∧ c.toNat ≤ 122 then Char.ofNat (c.toNat - 32) else c

/-- Python `s.lower()`. -/
def lowerStr (s : String) : String := ⟨s.data.map lowerChar⟩

/-- Python `s.upper()`. -/
def upperStr (s : String) : String := ⟨s.data.map upperChar⟩

/-- Whether `pre` occurs at the start of `chars`. -/
def charsStartWith : List Char → List Char → Bool
  | [], _ => true
  | _ :: _, [] => false
  | a :: as, b :: bs => a == b && charsStartWith as bs

/-- Python `s.startswith(pre)`. -/
def startsWithStr (s pre : String) : Bool := charsStartWith pre.data s.data

/-! ## Transaction records

`TransactionRecord` as produced by the Etherscan client and consumed by the
feature engineer and the Rarible enricher.  Field defaults mirror the
`tx.get(key, 0)` / `tx.get(key, "")` defaults of the dict-shaped source. -/

structure Txn where
  fromAddress : String := ""
  toAddress : String := ""
  value : ℤ := 0
  gasPrice : ℤ := 0
  gasUsed : ℤ := 0
  timestamp : ℤ := 0
  functionCall : List String := []
  transactionHash : String := ""
  blockNumber : ℤ := 0
  contractAddress : String := ""
  tokenValue : ℤ := 0
  tokenDecimal : ℤ := 0
  tokenId : Option String := none
  nftFloorPrice : ℚ := 0
  nftAveragePrice : ℚ := 0
  nftTotalVolume : ℚ := 0
  nftTotalSales : ℚ := 0
  nftNumOwners : ℚ := 0
  nftMarketCap : ℚ := 0
  nft7dayVolume : ℚ := 0
  nft7daySales : ℚ := 0
  nft7dayAvgPrice : ℚ := 0
  txType : String := ""
deriving DecidableEq

/-! ## `feature_engineer.py` -/

/-- A denominator floored at 1 (`max(n, 1)`), as used by every ratio
feature of `extract_account_level_features`. -/
def ratioDen (n : ℕ) : ℚ := (max n 1 : ℕ)

/-- The "outgoing" partition: `tx.get("from_address", "").lower() ==
account_address.lower()`. -/
def outTxnsOf (accountAddress : String) (transactions : List Txn) : List Txn :=
  transactions.filter fun tx => lowerStr tx.fromAddress == lowerStr accountAddress

/-- The "incoming" partition: `tx.get("to_address", "").lower() ==
account_address.lower()`. -/
def inTxnsOf (accountAddress : String) (transactions : List Txn) : List Txn :=
  transactions.filter fun tx => lowerStr tx.toAddress == lowerStr accountAddress

/-- The zero address prefix tested by `startswith` for mining/mint counts. -/
def zeroAddress : String := "0x0000000000000000000000000000000000000000"

/-- Function `extract_account_level_features`: the 15 account-level features, in
the order of the source.  `np.std` of the inter-transaction gaps is
irrational on ℚ, so the square root is an abstract parameter (`sqrt` of
the rational population variance). -/
def extract_account_level_features (sqrt : ℚ → ℚ) (accountAddress : String)
    (transactions : List Txn) : List ℚ :=
  let outTxns := outTxnsOf accountAddress transactions
  let inTxns := inTxnsOf accountAddress transactions
  let allTxns := transactions
  let gasPrices := allTxns.map fun tx => (tx.gasPrice : ℚ)
  let avgGasPrice := if gasPrices.isEmpty then 0 else npMean gasPrices
  let timestamps := (allTxns.map fun tx => tx.timestamp).filter fun t => 0 < t
  let activityDurationDays : ℚ :=
    if 1 < timestamps.length then
      (((timestamps.foldr max (timestamps.headD 0)) -
        (timestamps.foldr min (timestamps.headD 0)) : ℤ) : ℚ) / (24 * 3600)
    else 0
  let stdTimeBetweenTxns : ℚ :=
    if 1 < timestamps.length then
      let sorted := timestamps.mergeSort fun a b => decide (a ≤ b)
      let timeDiffs := (List.zipWith (fun a b => ((a - b : ℤ) : ℚ))
        sorted.tail sorted)
      if 0 < timeDiffs.length then sqrt (npVar timeDiffs) else 0
    else 0
  let totalVolume : ℚ := ((allTxns.map fun tx => tx.value).sum : ℤ)
  let inNeighborNum : ℚ :=
    (((inTxns.filter fun tx => tx.fromAddress ≠ "").map
      fun tx => lowerStr tx.fromAddress).dedup.length : ℕ)
  let totalTxn : ℚ := (allTxns.length : ℕ)
  let inOutRatio : ℚ := (inTxns.length : ℕ) / ratioDen outTxns.length
  let totalValueIn : ℚ := ((inTxns.map fun tx => tx.value).sum : ℤ)
  let outNeighborNum : ℚ :=
    (((outTxns.filter fun tx => tx.toAddress ≠ "").map
      fun tx => lowerStr tx.toAddress).dedup.length : ℕ)
  let gasUsed := allTxns.map fun tx => (tx.gasUsed : ℚ)
  let avgGasUsed := if gasUsed.isEmpty then 0 else npMean gasUsed
  let giftInTxns := inTxns.filter fun tx =>
    tx.value == 0 && decide (0 < tx.tokenValue)
  let giftinTxnRatio : ℚ := (giftInTxns.length : ℕ) / ratioDen inTxns.length
  let miningTxnNum : ℚ :=
    ((allTxns.filter fun tx => startsWithStr tx.fromAddress zeroAddress).length : ℕ)
  let avgValueOut : ℚ :=
    if outTxns.isEmpty then 0 else npMean (outTxns.map fun tx => (tx.value : ℚ))
  let turnoverRatio : ℚ := (outTxns.length : ℕ) / ratioDen inTxns.length
  let outTxn : ℚ := (outTxns.length : ℕ)
  [avgGasPrice, activityDurationDays, stdTimeBetweenTxns, totalVolume,
   inNeighborNum, totalTxn, inOutRatio, totalValueIn, outNeighborNum,
   avgGasUsed, giftinTxnRatio, miningTxnNum, avgValueOut, turnoverRatio,
   outTxn]

/-- The fixed suspicious-call patterns of
`extract_transaction_level_features`. -/
def suspiciousPatterns : List String :=
  ["setApprovalForAll", "approve", "transferFrom", "safeTransferFrom",
   "batchTransfer", "multiTransfer", "permit", "delegateCall"]

/-- Whether `needle` occurs anywhere inside `hay` (character lists):
Python's `needle in hay` on strings. -/
def charsContain (hay needle : List Char) : Bool :=
  charsStartWith needle hay ||
    match hay with
    | [] => false
    | _ :: t => charsContain t needle

/-- Python's substring test `needle in hay`. -/
def strContains (hay needle : String) : Bool :=
  charsContain hay.data needle.data

/-- Predicate `has_suspicious_func(tx)`: some decoded call name contains some
suspicious pattern, case-insensitively. -/
def hasSuspiciousFunc (tx : Txn) : Bool :=
  tx.functionCall.any fun f =>
    suspiciousPatterns.any fun pat => strContains (lowerStr f) (lowerStr pat)

/-- Numpy's `np.percentile(xs, 75)` with its default linear interpolation. -/
def percentile75 (xs : List ℚ) : ℚ :=
  let sorted := xs.mergeSort fun a b => decide (a ≤ b)
  let n := sorted.length
  if n = 0 then 0
  else
    let h : ℚ := ((n - 1 : ℕ) : ℚ) * 3 / 4
    let i : ℕ := (⌊h⌋).toNat
    let fr : ℚ := h - (i : ℚ)
    let lo := sorted.getD i 0
    let hi := sorted.getD (min (i + 1) (n - 1)) 0
    lo + fr * (hi - lo)

/-- Function `extract_transaction_level_features`: the 15 transaction-level
features, in the order of the source; the empty list short-circuits to
`np.zeros(15)`. -/
def extract_transaction_level_features (transactions : List Txn) : List ℚ :=
  if transactions.isEmpty then List.replicate 15 0
  else
    let gasPrices := transactions.map fun tx => (tx.gasPrice : ℚ)
    let gasUsedList := transactions.map fun tx => (tx.gasUsed : ℚ)
    let values := transactions.map fun tx => (tx.value : ℚ)
    let gasPrice := if gasPrices.isEmpty then 0 else npMean gasPrices
    let gasUsed := if gasUsedList.isEmpty then 0 else npMean gasUsedList
    let value := if values.isEmpty then 0 else npMean values
    let numFunctionsList := transactions.map fun tx => ((tx.functionCall.length : ℕ) : ℚ)
    let numFunctions := if numFunctionsList.isEmpty then 0 else npMean numFunctionsList
    let hasSuspiciousCount : ℚ :=
      ((transactions.filter hasSuspiciousFunc).length : ℕ)
    let hasSuspiciousRatio := hasSuspiciousCount / (transactions.length : ℕ)
    let nftNumOwners := npMean (transactions.map fun tx => tx.nftNumOwners)
    let nftTotalSales := npMean (transactions.map fun tx => tx.nftTotalSales)
    let tokenValue := npMean (transactions.map fun tx => (tx.tokenValue : ℚ))
    let nftTotalVolume := npMean (transactions.map fun tx => tx.nftTotalVolume)
    let isMintCount : ℚ :=
      ((transactions.filter fun tx => startsWithStr tx.fromAddress zeroAddress).length : ℕ)
    let isMint := isMintCount / (transactions.length : ℕ)
    let highGas : ℚ :=
      if gasUsedList.isEmpty then 0
      else if gasUsedList.length = 1 then
        if gasUsedList.headD 0 > 100000 then 1 else 0
      else
        ((gasUsedList.filter fun g => percentile75 gasUsedList < g).length : ℕ) /
          (gasUsedList.length : ℕ)
    let nftAveragePrice := npMean (transactions.map fun tx => tx.nftAveragePrice)
    let nftFloorPrice := npMean (transactions.map fun tx => tx.nftFloorPrice)
    let nftMarketCap := npMean (transactions.map fun tx => tx.nftMarketCap)
    let isZeroValueCount : ℚ :=
      ((transactions.filter fun tx => tx.value == 0).length : ℕ)
    let isZeroValue := isZeroValueCount / (transactions.length : ℕ)
    [gasPrice, gasUsed, value, numFunctions, hasSuspiciousRatio,
     nftNumOwners, nftTotalSales, tokenValue, nftTotalVolume, isMint,
     highGas, nftAveragePrice, nftFloorPrice, nftMarketCap, isZeroValue]

/-! ### C4 and C6 theorems -/

/-- C4: for every transaction list (and subject address, and abstract
square root), `extract_account_level_features` and
`extract_transaction_level_features` return a vector of exactly 15
entries, and on the empty list both return the all-zero 15-vector.  The
functions are total, so no input raises an error; in this rational model
every entry is a finite rational by construction. -/
theorem claim_C4_fifteen_features (sqrt : ℚ → ℚ) (accountAddress : String)
    (transactions : List Txn) :
    (extract_account_level_features sqrt accountAddress transactions).length = 15 ∧
    (extract_transaction_level_features transactions).length = 15 ∧
    extract_account_level_features sqrt accountAddress [] = List.replicate 15 0 ∧
    extract_transaction_level_features ([] : List Txn) = List.replicate 15 0 := by
  refine ⟨rfl, ?_, ?_, rfl⟩
  · unfold extract_transaction_level_features
    split <;> rfl
  · unfold extract_account_level_features outTxnsOf inTxnsOf ratioDen
    norm_num [npMean, List.replicate]

/-- C6: every ratio feature of `extract_account_level_features`
(`in_out_ratio`, `giftinTxn_ratio`, `turnover_ratio`) divides by
`ratioDen = max(count, 1)`, which is strictly positive, and an account
with zero outgoing transactions is processed without any division error:
its `in_out_ratio` entry equals the incoming count divided by 1 and its
`turnover_ratio` entry is 0. -/
theorem claim_C6_ratio_denominators (sqrt : ℚ → ℚ) (accountAddress : String)
    (transactions : List Txn)
    (hout : outTxnsOf accountAddress transactions = []) :
    (0 < ratioDen (outTxnsOf accountAddress transactions).length ∧
     0 < ratioDen (inTxnsOf accountAddress transactions).length ∧
     (∀ n : ℕ, ratioDen n ≠ 0)) ∧
    (extract_account_level_features sqrt accountAddress transactions).getD 6 0 =
      ((inTxnsOf accountAddress transactions).length : ℚ) ∧
    (extract_account_level_features sqrt accountAddress transactions).getD 13 0 = 0 := by
  have hpos : ∀ n : ℕ, 0 < ratioDen n := by
    intro n
    unfold ratioDen
    have : (1 : ℕ) ≤ max n 1 := le_max_right n 1
    exact_mod_cast Nat.lt_of_lt_of_le Nat.zero_lt_one this
  refine ⟨⟨hpos _, hpos _, fun n => ne_of_gt (hpos n)⟩, ?_, ?_⟩
  · unfold extract_account_level_features
    rw [hout]
    simp [ratioDen]
  · unfold extract_account_level_features
    rw [hout]
    simp

/-- C6 witness: a single incoming transfer and no outgoing transfers for
address `0xa`; the denominators are positive and the ratios are defined. -/
theorem claim_C6_witness :
    (0 < ratioDen (outTxnsOf "0xa" [{ toAddress := "0xA", fromAddress := "0xb" }]).length ∧
     0 < ratioDen (inTxnsOf "0xa" [{ toAddress := "0xA", fromAddress := "0xb" }]).length ∧
     (∀ n : ℕ, ratioDen n ≠ 0)) ∧
    (extract_account_level_features ratSqrt "0xa"
      [{ toAddress := "0xA", fromAddress := "0xb" }]).getD 6 0 =
      ((inTxnsOf "0xa" [{ toAddress := "0xA", fromAddress := "0xb" }]).length : ℚ) ∧
    (extract_account_level_features ratSqrt "0xa"
      [{ toAddress := "0xA", fromAddress := "0xb" }]).getD 13 0 = 0 :=
  claim_C6_ratio_denominators ratSqrt "0xa"
    [{ toAddress := "0xA", fromAddress := "0xb" }] (by decide)

/-! ## `etherscan_client.py`

A raw explorer result row, pre-parsed: `_safe_int` turns the upstream's
decimal/hex strings (or missing values) into integers with default 0, so
integer fields here hold the parsed values; `tokenValue` keeps its
optionality because `txn.get("tokenValue") or txn.get("value")` falls back
to `value` when the key is absent or empty. -/

structure RawTxn where
  fromA : String := ""
  toA : String := ""
  value : ℤ := 0
  gasPrice : ℤ := 0
  gasUsed : ℤ := 0
  timeStamp : ℤ := 0
  input : String := ""
  hash : String := ""
  blockNumber : ℤ := 0
  contractAddress : String := ""
  tokenValue : Option ℤ := none
  tokenDecimal : ℤ := 0
  tokenID : Option String := none
deriving DecidableEq

/-- Mapping `SIG_MAP`: 4-byte selector → (canonical name, inferred token standard). -/
def SIG_MAP : List (String × (String × Option String)) :=
  [("0x095ea7b3", ("approve", none)),
   ("0xa22cb465", ("setApprovalForAll", some "erc721")),
   ("0x23b872dd", ("transferFrom", none)),
   ("0x42842e0e", ("safeTransferFrom", some "erc721")),
   ("0xb88d4fde", ("safeTransferFrom", some "erc721")),
   ("0xf242432a", ("safeBatchTransferFrom", some "erc1155")),
   ("0x8fcbaf0c", ("permit", some "erc20")),
   ("0xa9059cbb", ("transfer", some "erc20")),
   ("0x2eb2c2d6", ("safeTransferFrom", some "erc1155"))]

/-- Function `decode_function_name`: the selector's canonical name, or no name for
unknown/short/empty input. -/
def decode_function_name (inputData : String) : List String :=
  if inputData = "" ∨ inputData.data.length < 10 then []
  else
    match SIG_MAP.lookup (lowerStr ⟨inputData.data.take 10⟩) with
    | some p => [p.1]
    | none => []

/-- Function `_get_token_type_from_input`: token standard inferred from the
selector, if any. -/
def getTokenTypeFromInput (inputData : String) : Option String :=
  if inputData = "" ∨ inputData.data.length < 10 then none
  else (SIG_MAP.lookup (lowerStr ⟨inputData.data.take 10⟩)).bind fun p => p.2

/-- The `tx_type` assigned by `_fetch_token_transactions`:
`inferred_type or tx_type` where `inferred_type = selector_type or
tx_type` (all three selector-mapped standards are non-empty strings). -/
def fetcherTxType (inputData : String) (catType : String) : String :=
  (getTokenTypeFromInput inputData).getD catType

/-- The record `_fetch_token_transactions` builds from one raw row. -/
def formatTxn (catType : String) (r : RawTxn) : Txn :=
  { fromAddress := lowerStr r.fromA
    toAddress := lowerStr r.toA
    value := r.value
    gasPrice := r.gasPrice
    gasUsed := r.gasUsed
    timestamp := r.timeStamp
    functionCall := decode_function_name r.input
    transactionHash := r.hash
    blockNumber := r.blockNumber
    contractAddress := lowerStr (if r.contractAddress ≠ "" then r.contractAddress else r.toA)
    tokenValue := r.tokenValue.getD r.value
    tokenDecimal := r.tokenDecimal
    tokenId := r.tokenID
    txType := fetcherTxType r.input catType }

/-- One page of an Etherscan `{status, message, result[]}` response. -/
structure EtherscanPage where
  status : String := "1"
  result : List RawTxn := []

/-- The pagination loop of `_fetch_token_transactions`, with the page
oracle mapping page numbers to responses.  The loop body appends at least
one record whenever it recurses, so `maxTxns` bounds the iteration count
and serves as structural fuel. -/
def fetchGo (pages : ℕ → EtherscanPage) (catType : String) (maxTxns : ℕ) :
    ℕ → ℕ → List Txn → List Txn
  | 0, _, acc => acc
  | fuel + 1, page, acc =>
    if acc.length < maxTxns then
      let pg := pages page
      if pg.status ≠ "1" then acc
      else if pg.result.isEmpty then acc
      else
        let newAcc := acc ++ (pg.result.take (maxTxns - acc.length)).map (formatTxn catType)
        if pg.result.length < 100 then newAcc
        else fetchGo pages catType maxTxns fuel (page + 1) newAcc
    else acc

/-- Function `_fetch_token_transactions(address, action, tx_type, max_txns, ...)`,
abstracted over the network by the page oracle. -/
def fetch_token_transactions (pages : ℕ → EtherscanPage) (catType : String)
    (maxTxns : ℕ) : List Txn :=
  fetchGo pages catType maxTxns maxTxns 1 []

/-- Constant `max_per_type = 4` in `get_account_transactions`. -/
def maxPerType : ℕ := 4

/-- Constant `MAX_TOTAL_TRANSACTIONS = 10` in `get_account_transactions`. -/
def MAX_TOTAL_TRANSACTIONS : ℕ := 10

/-- The ordering used by `combined.sort(key=..., reverse=True)`:
timestamp descending, stable on ties. -/
def tsDesc (a b : Txn) : Bool := decide (b.timestamp ≤ a.timestamp)

/-- Function `get_account_transactions`: fetch the three token-standard categories
(each given by its page oracle), merge, sort by timestamp descending and
truncate to the global cap. -/
def get_account_transactions (pages20 pages721 pages1155 : ℕ → EtherscanPage) :
    List Txn :=
  let erc20 := fetch_token_transactions pages20 "erc20" maxPerType
  let erc721 := fetch_token_transactions pages721 "erc721" maxPerType
  let erc1155 := fetch_token_transactions pages1155 "erc1155" maxPerType
  let combined := (erc20 ++ erc721 ++ erc1155).mergeSort tsDesc
  combined.take MAX_TOTAL_TRANSACTIONS

/-! ### C7 theorems -/

lemma fetchGo_length_le (pages : ℕ → EtherscanPage) (catType : String)
    (maxTxns : ℕ) :
    ∀ (fuel page : ℕ) (acc : List Txn), acc.length ≤ maxTxns →
      (fetchGo pages catType maxTxns fuel page acc).length ≤ maxTxns := by
  intro fuel
  induction fuel with
  | zero => intro page acc h; exact h
  | succ n ih =>
    intro page acc h
    unfold fetchGo
    dsimp only
    split_ifs with h1 h2 h3 h4
    · exact h
    · exact h
    · rw [List.length_append, List.length_map]
      have := List.length_take_le (maxTxns - acc.length) (pages page).result
      omega
    · apply ih
      rw [List.length_append, List.length_map]
      have := List.length_take_le (maxTxns - acc.length) (pages page).result
      omega
    · exact h

lemma tsDesc_trans : ∀ a b c : Txn, tsDesc a b = true → tsDesc b c = true →
    tsDesc a c = true := by
  intro a b c hab hbc
  unfold tsDesc at *
  rw [decide_eq_true_eq] at *
  exact le_trans hbc hab

lemma tsDesc_total : ∀ a b : Txn, (tsDesc a b || tsDesc b a) = true := by
  intro a b
  unfold tsDesc
  rcases le_total a.timestamp b.timestamp with h | h <;> simp [h]

/-- C7: for all three page oracles, `get_account_transactions` returns a
prefix of a timestamp-descending sorted permutation of the merged
per-category results, truncated to the global cap of 10 records; each
per-category fetch is capped at 4 records and 10 < 4 + 4 + 4. -/
theorem claim_C7_merge_sort_cap (pages20 pages721 pages1155 : ℕ → EtherscanPage) :
    (get_account_transactions pages20 pages721 pages1155).length ≤
      MAX_TOTAL_TRANSACTIONS ∧
    List.Pairwise (fun a b => b.timestamp ≤ a.timestamp)
      (get_account_transactions pages20 pages721 pages1155) ∧
    (∃ s : List Txn,
      s.Perm (fetch_token_transactions pages20 "erc20" maxPerType ++
        fetch_token_transactions pages721 "erc721" maxPerType ++
        fetch_token_transactions pages1155 "erc1155" maxPerType) ∧
      List.Pairwise (fun a b => b.timestamp ≤ a.timestamp) s ∧
      get_account_transactions pages20 pages721 pages1155 =
        s.take MAX_TOTAL_TRANSACTIONS) ∧
    MAX_TOTAL_TRANSACTIONS < maxPerType + maxPerType + maxPerType ∧
    (fetch_token_transactions pages20 "erc20" maxPerType).length ≤ maxPerType ∧
    (fetch_token_transactions pages721 "erc721" maxPerType).length ≤ maxPerType ∧
    (fetch_token_transactions pages1155 "erc1155" maxPerType).length ≤ maxPerType := by
  have hsorted : List.Pairwise (fun a b => b.timestamp ≤ a.timestamp)
      ((fetch_token_transactions pages20 "erc20" maxPerType ++
        fetch_token_transactions pages721 "erc721" maxPerType ++
        fetch_token_transactions pages1155 "erc1155" maxPerType).mergeSort tsDesc) := by
    have := List.sorted_mergeSort tsDesc_trans tsDesc_total
      (fetch_token_transactions pages20 "erc20" maxPerType ++
        fetch_token_transactions pages721 "erc721" maxPerType ++
        fetch_token_transactions pages1155 "erc1155" maxPerType)
    exact this.imp fun h => by
      unfold tsDesc at h
      exact of_decide_eq_true h
  refine ⟨?_, ?_, ⟨_, List.mergeSort_perm _ tsDesc, hsorted, rfl⟩, by decide,
    fetchGo_length_le _ _ _ _ _ _ (by simp),
    fetchGo_length_le _ _ _ _ _ _ (by simp),
    fetchGo_length_le _ _ _ _ _ _ (by simp)⟩
  · unfold get_account_transactions
    exact List.length_take_le _ _
  · unfold get_account_transactions
    exact List.Pairwise.sublist (List.take_sublist _ _) hsorted

/-! ## `detect.py`: by-hash and pending transaction records -/

/-- Fields of an `eth_getTransactionByHash` result, pre-parsed
(`parse_int_value` handles decimal/hex strings with default 0). -/
structure TxData where
  fromA : String := ""
  toA : String := ""
  value : ℤ := 0
  gasPrice : ℤ := 0
  blockNumber : ℤ := 0
  input : String := "0x"
deriving DecidableEq

/-- The `tx_type` assigned by `fetch_transaction_from_etherscan`:
`"erc721" if is_nft_tx else "normal"` where `is_nft_tx = input_data and
input_data != "0x" and len(input_data) > 10`. -/
def byHashTxType (inputData : String) : String :=
  if inputData ≠ "" ∧ inputData ≠ "0x" ∧ 10 < inputData.data.length
  then "erc721" else "normal"

/-- The record built by `fetch_transaction_from_etherscan` from the
transaction data, the receipt's gas, the current time, and the hash. -/
def fetch_transaction_from_etherscan (tx : TxData) (gasUsedReceipt : ℤ)
    (now : ℤ) (txHash : String) : Txn :=
  { fromAddress := lowerStr tx.fromA
    toAddress := lowerStr tx.toA
    value := tx.value
    gasPrice := tx.gasPrice
    gasUsed := gasUsedReceipt
    timestamp := now
    functionCall := decode_function_name tx.input
    transactionHash := txHash
    blockNumber := tx.blockNumber
    contractAddress := lowerStr tx.toA
    tokenValue := 0
    txType := byHashTxType tx.input }

/-- The optional fields of a `DetectTransactionIn` pending-transaction
request (integer-valued strings pre-parsed). -/
structure PendingBody where
  fromAddress : String := ""
  toAddress : String := ""
  value : Option ℤ := none
  gasPrice : Option ℤ := none
  gasUsed : Option ℤ := none
  timestamp : Option ℤ := none
  functionCall : Option (List String) := none
  inputData : Option String := none
  contractAddress : Option String := none
  tokenValue : Option ℤ := none
deriving DecidableEq

/-- The `tx_type` assigned by the pending-transaction path:
`"erc721" if body.contract_address else "normal"` (Python truthiness:
`None` and the empty string are falsy). -/
def pendingTxType (contractAddress : Option String) : String :=
  match contractAddress with
  | some s => if s ≠ "" then "erc721" else "normal"
  | none => "normal"

/-- The record built by the pending-transaction branch of
`detect_transaction` (`now` is `int(time.time())`; a supplied timestamp of
0 is falsy in Python and also falls back to `now`). -/
def buildPendingTxn (b : PendingBody) (now : ℤ) : Txn :=
  let fc0 := b.functionCall.getD []
  let inputStr := b.inputData.getD ""
  let functionCalls :=
    if fc0 = [] ∧ inputStr ≠ "" then decode_function_name inputStr else fc0
  { fromAddress := lowerStr b.fromAddress
    toAddress := lowerStr b.toAddress
    value := b.value.getD 0
    gasPrice := b.gasPrice.getD 0
    gasUsed := b.gasUsed.getD 0
    timestamp := match b.timestamp with
      | some t => if t ≠ 0 then t else now
      | none => now
    functionCall := functionCalls
    contractAddress := lowerStr (match b.contractAddress with
      | some s => if s ≠ "" then s else b.toAddress
      | none => b.toAddress)
    tokenValue := b.tokenValue.getD 0
    transactionHash := ""
    blockNumber := 0
    txType := pendingTxType b.contractAddress }

/-! ### C9 theorems -/

lemma sigmap_lookup_snd (s : String) (p : String × Option String)
    (h : SIG_MAP.lookup s = some p) :
    p.2 = none ∨ p.2 = some "erc721" ∨ p.2 = some "erc1155" ∨
      p.2 = some "erc20" := by
  simp only [SIG_MAP, List.lookup] at h
  repeat' split at h
  all_goals cases h
  all_goals simp

lemma getTokenType_mem (inputData : String) (t : String)
    (h : getTokenTypeFromInput inputData = some t) :
    t ∈ (["erc20", "erc721", "erc1155"] : List String) := by
  unfold getTokenTypeFromInput at h
  split at h
  · exact absurd h (by simp)
  · cases hl : SIG_MAP.lookup (lowerStr ⟨inputData.data.take 10⟩) with
    | none => rw [hl] at h; exact absurd h (by simp)
    | some p =>
      rw [hl] at h
      have hp : p.2 = some t := by simpa using h
      rcases sigmap_lookup_snd _ p hl with h2 | h2 | h2 | h2 <;>
        rw [h2] at hp <;> simp_all

/-- C9 (counterexample): a pending-transaction request with no contract
address produces a record with `tx_type = "normal"`, which is none of
erc20, erc721, erc1155 — so not every record produced by the pipeline has
a `tx_type` in that set. -/
theorem claim_C9_counterexample :
    (buildPendingTxn { fromAddress := "0xa", toAddress := "0xb" } 0).txType =
      "normal" ∧
    "normal" ∉ (["erc20", "erc721", "erc1155"] : List String) := by
  constructor
  · rfl
  · decide

/-- C9 (amended): records built by the chain-data fetcher
(`_fetch_token_transactions`) always have `tx_type` ∈ {erc20, erc721,
erc1155}; records built by the by-hash path and by the pending-transaction
path instead have `tx_type` ∈ {erc721, normal}. -/
theorem claim_C9_amended :
    (∀ (r : RawTxn) (cat : String),
      cat ∈ (["erc20", "erc721", "erc1155"] : List String) →
      (formatTxn cat r).txType ∈ (["erc20", "erc721", "erc1155"] : List String)) ∧
    (∀ (tx : TxData) (g now : ℤ) (txHash : String),
      (fetch_transaction_from_etherscan tx g now txHash).txType ∈
        (["erc721", "normal"] : List String)) ∧
    (∀ (b : PendingBody) (now : ℤ),
      (buildPendingTxn b now).txType ∈ (["erc721", "normal"] : List String)) := by
  refine ⟨?_, ?_, ?_⟩
  · intro r cat hcat
    show fetcherTxType r.input cat ∈ _
    unfold fetcherTxType
    cases ht : getTokenTypeFromInput r.input with
    | none => simpa using hcat
    | some t => simpa using getTokenType_mem r.input t ht
  · intro tx g now txHash
    show byHashTxType tx.input ∈ _
    unfold byHashTxType
    split <;> simp
  · intro b now
    show pendingTxType b.contractAddress ∈ _
    unfold pendingTxType
    cases b.contractAddress with
    | none => simp
    | some s => by_cases hs : s = "" <;> simp [hs]

/-- C9 witness: the fetcher's record for an empty raw row in the erc20
category keeps `tx_type = "erc20"`, and the by-hash record for default
transaction data is tagged `normal`. -/
theorem claim_C9_witness :
    (formatTxn "erc20" {}).txType ∈ (["erc20", "erc721", "erc1155"] : List String) ∧
    (fetch_transaction_from_etherscan {} 0 0 "").txType ∈
      (["erc721", "normal"] : List String) :=
  ⟨claim_C9_amended.1 {} "erc20" (by decide),
   claim_C9_amended.2.1 {} 0 0 ""⟩

/-! ## `rarible_client.py`

The collection-statistics upstream is modelled by an oracle from the
collection id (`"ETHEREUM:{contract}"`) to the outcome of one
`collection_statistics` call: the parsed body on HTTP 200, a distinguished
"not found" outcome on HTTP 404 (the function returns `None`), or a
transport failure (`raise_for_status` raises).  The process-wide negative
cache `_NOT_FOUND_CACHE` is threaded explicitly as a list with set
semantics. -/

/-- One `{currency, value}` entry of a Rarible price list. -/
structure PriceEntry where
  currency : String := ""
  value : ℚ := 0
deriving DecidableEq

/-- A parsed collection-statistics body. -/
structure CollectionStats where
  owners : ℚ := 0
  items : ℚ := 0
  floorPrice : List PriceEntry := []
  marketCap : List PriceEntry := []
  volume : List PriceEntry := []
  highestSale : List PriceEntry := []
deriving DecidableEq

/-- Outcome of one `collection_statistics` network call. -/
inductive FetchResult where
  | found (stats : CollectionStats)
  | notFound
  | failed
deriving DecidableEq

/-- Function `_extract_eth_value`: the first ETH entry's value; else the first USD
entry's value converted at 2000 USD/ETH when positive; else 0. -/
def extractEthValue (priceList : List PriceEntry) : ℚ :=
  match priceList.find? fun p => upperStr p.currency == "ETH" with
  | some p => p.value
  | none =>
    match priceList.find? fun p => upperStr p.currency == "USD" with
    | some p => if p.value > 0 then p.value / 2000 else 0
    | none => 0

/-- Function `_set_default_nft_fields`: all nine NFT fields set to 0. -/
def setDefaultNftFields (t : Txn) : Txn :=
  { t with nftNumOwners := 0, nftTotalSales := 0, nftFloorPrice := 0,
           nftMarketCap := 0, nftTotalVolume := 0, nftAveragePrice := 0,
           nft7dayVolume := 0, nft7daySales := 0, nft7dayAvgPrice := 0 }

/-- The nine NFT fields of a record are all zero. -/
def hasZeroNftFields (t : Txn) : Prop :=
  t.nftNumOwners = 0 ∧ t.nftTotalSales = 0 ∧ t.nftFloorPrice = 0 ∧
  t.nftMarketCap = 0 ∧ t.nftTotalVolume = 0 ∧ t.nftAveragePrice = 0 ∧
  t.nft7dayVolume = 0 ∧ t.nft7daySales = 0 ∧ t.nft7dayAvgPrice = 0

instance (t : Txn) : Decidable (hasZeroNftFields t) := by
  unfold hasZeroNftFields
  infer_instance

/-- The success branch shared by both enrichment functions: fill the NFT
fields from the statistics body, deriving `nft_average_price` from the
highest sale, else volume/sales, else the floor price; 7-day metrics are
fixed at 0. -/
def applyStats (stats : CollectionStats) (t : Txn) : Txn :=
  let t1 := { t with
    nftNumOwners := stats.owners
    nftTotalSales := stats.items
    nftFloorPrice := extractEthValue stats.floorPrice
    nftMarketCap := extractEthValue stats.marketCap
    nftTotalVolume := extractEthValue stats.volume }
  let highestSale := extractEthValue stats.highestSale
  let avg :=
    if highestSale > 0 then highestSale
    else if t1.nftTotalSales > 0 ∧ t1.nftTotalVolume > 0 then
      t1.nftTotalVolume / t1.nftTotalSales
    else t1.nftFloorPrice
  { t1 with nftAveragePrice := avg, nft7dayVolume := 0, nft7daySales := 0,
            nft7dayAvgPrice := 0 }

/-- The collection id, Python f-string ETHEREUM colon contract address. -/
def mkCid (contractAddress : String) : String := "ETHEREUM:" ++ contractAddress

/-- Call `_NOT_FOUND_CACHE.add(cid)`: add-only set insert. -/
def cacheAdd (cache : List String) (cid : String) : List String :=
  if cid ∈ cache then cache else cid :: cache

/-- Function `enrich_transaction_with_nft_data` (the single-record path): returns
the record, the updated negative cache, and the collection ids for which a
network call was issued. -/
def enrich_transaction_with_nft_data (oracle : String → FetchResult)
    (cache : List String) (t : Txn) : Txn × List String × List String :=
  if t.contractAddress = "" then (setDefaultNftFields t, cache, [])
  else
    let cid := mkCid t.contractAddress
    if cid ∈ cache then (setDefaultNftFields t, cache, [])
    else
      match oracle cid with
      | .notFound => (setDefaultNftFields t, cacheAdd cache cid, [cid])
      | .found stats => (applyStats stats t, cache, [cid])
      | .failed => (setDefaultNftFields t, cache, [cid])

/-- The grouping pass of `enrich_transactions_with_nft_data` applied to
one record: ERC-20 records and records with no contract address get their
NFT fields zeroed immediately; all records stay in the list. -/
def firstPassTxn (t : Txn) : Txn :=
  if lowerStr t.txType = "erc20" then setDefaultNftFields t
  else if t.contractAddress = "" then setDefaultNftFields t
  else t

/-- Statement `if k not in contract_to_txns: contract_to_txns[k] = []`: dict-key
insertion in first-seen order. -/
def insertKey (ks : List String) (k : String) : List String :=
  if k ∈ ks then ks else ks ++ [k]

/-- One step of building `contract_to_txns`' key list. -/
def keysStep (ks : List String) (t : Txn) : List String :=
  if lowerStr t.txType = "erc20" then ks
  else if t.contractAddress ≠ "" then insertKey ks t.contractAddress
  else ks

/-- The keys of `contract_to_txns`: the distinct non-empty contract
addresses of the non-ERC-20 records, in first-seen order. -/
def contractKeys (txns : List Txn) : List String :=
  txns.foldl keysStep []

/-- Dict `stats_map`: collection id → parsed body, `none` both for a 404 and
for a call that raised (`isinstance(result, Exception)`). -/
def statsMapOf (oracle : String → FetchResult) (uncached : List String) :
    List (String × Option CollectionStats) :=
  uncached.map fun cid =>
    (cid, match oracle cid with
          | .found stats => some stats
          | .notFound => none
          | .failed => none)

/-- The cache additions of the result-mapping loop: a 404 result is cached
negatively; an exception result is not. -/
def cacheAfterMapping (oracle : String → FetchResult) (cache : List String)
    (uncached : List String) : List String :=
  uncached.foldl (fun c cid =>
    match oracle cid with
    | .notFound => cacheAdd c cid
    | _ => c) cache

/-- Lookup `stats_map.get(cid)`: `none` when the key is missing and when the
stored value is `None`. -/
def smGet (statsMap : List (String × Option CollectionStats)) (cid : String) :
    Option CollectionStats :=
  (statsMap.lookup cid).bind id

/-- The application loop of `enrich_transactions_with_nft_data`: for each
record, an empty contract address passes through (already zeroed by the
grouping pass), a negatively cached collection id zeroes the fields, a
missing or `None` stats-map entry zeroes the fields and inserts the id
into the negative cache, and a parsed body is applied.  The cache is
threaded through the iteration. -/
def applyLoop (statsMap : List (String × Option CollectionStats)) :
    List String → List Txn → List Txn × List String
  | cache, [] => ([], cache)
  | cache, t :: ts =>
    if t.contractAddress = "" then
      let rest := applyLoop statsMap cache ts
      (t :: rest.1, rest.2)
    else
      let cid := mkCid t.contractAddress
      if cid ∈ cache then
        let rest := applyLoop statsMap cache ts
        (setDefaultNftFields t :: rest.1, rest.2)
      else
        match smGet statsMap cid with
        | none =>
          let rest := applyLoop statsMap (cacheAdd cache cid) ts
          (setDefaultNftFields t :: rest.1, rest.2)
        | some stats =>
          let rest := applyLoop statsMap cache ts
          (applyStats stats t :: rest.1, rest.2)

/-- Function `enrich_transactions_with_nft_data` (the batch path): returns the
enriched records, the final negative cache, and the collection ids
actually fetched (`uncached_collections` — the unique non-ERC-20 contract
ids not already negatively cached; the asyncio.gather of their
`collection_statistics` calls is the only network traffic). -/
def enrich_transactions_with_nft_data (oracle : String → FetchResult)
    (cache : List String) (txns : List Txn) :
    List Txn × List String × List String :=
  if txns.isEmpty then ([], cache, [])
  else
    let txns1 := txns.map firstPassTxn
    let cids := (contractKeys txns).map mkCid
    let uncached := cids.filter fun cid => cid ∉ cache
    let sm := statsMapOf oracle uncached
    let cache1 := cacheAfterMapping oracle cache uncached
    let res := applyLoop sm cache1 txns1
    (res.1, res.2, uncached)

/-! ### Cache and apply-loop lemmas -/

lemma mem_cacheAdd_self (cache : List String) (cid : String) :
    cid ∈ cacheAdd cache cid := by
  unfold cacheAdd
  split
  · assumption
  · exact List.mem_cons_self _ _

lemma cacheAdd_mem_of_mem (cache : List String) (cid x : String)
    (h : x ∈ cache) : x ∈ cacheAdd cache cid := by
  unfold cacheAdd
  split
  · exact h
  · exact List.mem_cons_of_mem _ h

lemma cacheAfterMapping_mem_of_mem (oracle : String → FetchResult)
    (uncached : List String) :
    ∀ (cache : List String) (x : String), x ∈ cache →
      x ∈ cacheAfterMapping oracle cache uncached := by
  induction uncached with
  | nil => intro cache x h; exact h
  | cons c cs ih =>
    intro cache x h
    unfold cacheAfterMapping
    simp only [List.foldl_cons]
    cases horacle : oracle c with
    | notFound => exact ih _ x (cacheAdd_mem_of_mem _ _ _ h)
    | found stats => exact ih _ x h
    | failed => exact ih _ x h

lemma cacheAfterMapping_mem_notFound (oracle : String → FetchResult)
    (uncached : List String) :
    ∀ (cache : List String) (cid : String), cid ∈ uncached →
      oracle cid = .notFound →
      cid ∈ cacheAfterMapping oracle cache uncached := by
  induction uncached with
  | nil => intro cache cid h; exact absurd h (List.not_mem_nil cid)
  | cons c cs ih =>
    intro cache cid hmem horacle
    unfold cacheAfterMapping
    simp only [List.foldl_cons]
    rcases List.mem_cons.mp hmem with heq | htail
    · subst heq
      rw [horacle]
      exact cacheAfterMapping_mem_of_mem oracle cs _ cid
        (mem_cacheAdd_self cache cid)
    · cases horacle2 : oracle c <;> exact ih _ cid htail horacle

lemma applyLoop_cache_mono (sm : List (String × Option CollectionStats)) :
    ∀ (ts : List Txn) (cache : List String) (x : String), x ∈ cache →
      x ∈ (applyLoop sm cache ts).2 := by
  intro ts
  induction ts with
  | nil => intro cache x h; exact h
  | cons t ts ih =>
    intro cache x h
    unfold applyLoop
    dsimp only
    split_ifs with h1 h2
    · exact ih cache x h
    · exact ih cache x h
    · cases hl : smGet sm (mkCid t.contractAddress) with
      | none => exact ih _ x (cacheAdd_mem_of_mem _ _ _ h)
      | some stats => exact ih cache x h

lemma hasZero_setDefault (t : Txn) : hasZeroNftFields (setDefaultNftFields t) := by
  unfold hasZeroNftFields setDefaultNftFields
  norm_num

lemma applyLoop_length (sm : List (String × Option CollectionStats)) :
    ∀ (ts : List Txn) (cache : List String),
      (applyLoop sm cache ts).1.length = ts.length := by
  intro ts
  induction ts with
  | nil => intro cache; rfl
  | cons t ts ih =>
    intro cache
    unfold applyLoop
    dsimp only
    split_ifs with h1 h2
    · simp [ih]
    · simp [ih]
    · cases hl : smGet sm (mkCid t.contractAddress) with
      | none => simp [ih]
      | some stats => simp [ih]

lemma applyLoop_zero_of_cached (sm : List (String × Option CollectionStats))
    (addr : String) (haddr : addr ≠ "") :
    ∀ (ts : List Txn) (cache : List String), mkCid addr ∈ cache →
      ∀ (i : ℕ) (t : Txn), ts.get? i = some t → t.contractAddress = addr →
        ∃ u, (applyLoop sm cache ts).1.get? i = some u ∧ hasZeroNftFields u := by
  intro ts
  induction ts with
  | nil => intro cache hc i t hget; simp at hget
  | cons t0 ts ih =>
    intro cache hc i t hget hcontract
    cases i with
    | zero =>
      simp only [List.get?_cons_zero, Option.some.injEq] at hget
      subst hget
      unfold applyLoop
      dsimp only
      split_ifs with h1 h2
      · rw [hcontract] at h1
        exact absurd h1 haddr
      · exact ⟨setDefaultNftFields t0, by simp, hasZero_setDefault t0⟩
      · rw [hcontract] at h2
        exact absurd hc h2
    | succ n =>
      simp only [List.get?_cons_succ] at hget
      unfold applyLoop
      dsimp only
      split_ifs with h1 h2
      · simpa using ih cache hc n t hget hcontract
      · simpa using ih cache hc n t hget hcontract
      · cases hl : smGet sm (mkCid t0.contractAddress) with
        | none =>
          simpa using ih _ (cacheAdd_mem_of_mem _ _ _ hc) n t hget hcontract
        | some stats =>
          simpa using ih cache hc n t hget hcontract

lemma applyLoop_zero_elem (sm : List (String × Option CollectionStats)) :
    ∀ (ts : List Txn) (cache : List String) (i : ℕ) (t : Txn),
      ts.get? i = some t → hasZeroNftFields t →
      smGet sm (mkCid t.contractAddress) = none →
      ∃ u, (applyLoop sm cache ts).1.get? i = some u ∧ hasZeroNftFields u := by
  intro ts
  induction ts with
  | nil => intro cache i t hget; simp at hget
  | cons t0 ts ih =>
    intro cache i t hget hzero hlook
    cases i with
    | zero =>
      simp only [List.get?_cons_zero, Option.some.injEq] at hget
      subst hget
      unfold applyLoop
      dsimp only
      split_ifs with h1 h2
      · exact ⟨t0, by simp, hzero⟩
      · exact ⟨setDefaultNftFields t0, by simp, hasZero_setDefault t0⟩
      · rw [hlook]
        exact ⟨setDefaultNftFields t0, by simp, hasZero_setDefault t0⟩
    | succ n =>
      simp only [List.get?_cons_succ] at hget
      unfold applyLoop
      dsimp only
      split_ifs with h1 h2
      · simpa using ih cache n t hget hzero hlook
      · simpa using ih cache n t hget hzero hlook
      · cases hl : smGet sm (mkCid t0.contractAddress) with
        | none => simpa using ih _ n t hget hzero hlook
        | some stats => simpa using ih cache n t hget hzero hlook

/-! ### Contract-key and stats-map lemmas -/

lemma mkCid_inj {a b : String} (h : mkCid a = mkCid b) : a = b := by
  unfold mkCid at h
  have hd := congrArg String.data h
  simp only [String.data_append] at hd
  exact String.ext (List.append_cancel_left hd)

lemma insertKey_nodup (ks : List String) (k : String) (h : ks.Nodup) :
    (insertKey ks k).Nodup := by
  unfold insertKey
  split_ifs with hmem
  · exact h
  · simp [List.nodup_append, h, hmem]

lemma mem_insertKey (ks : List String) (k x : String)
    (h : x ∈ insertKey ks k) : x ∈ ks ∨ x = k := by
  unfold insertKey at h
  split_ifs at h with hmem
  · exact Or.inl h
  · rcases List.mem_append.mp h with h2 | h2
    · exact Or.inl h2
    · exact Or.inr (by simpa using h2)

lemma keysStep_nodup (ks : List String) (t : Txn) (h : ks.Nodup) :
    (keysStep ks t).Nodup := by
  unfold keysStep
  split_ifs <;> first | exact h | exact insertKey_nodup ks _ h

lemma mem_keysStep (ks : List String) (t : Txn) (x : String)
    (h : x ∈ keysStep ks t) :
    x ∈ ks ∨ (lowerStr t.txType ≠ "erc20" ∧ t.contractAddress = x ∧ x ≠ "") := by
  unfold keysStep at h
  split_ifs at h with h1 h2
  · exact Or.inl h
  · rcases mem_insertKey ks _ x h with h3 | h3
    · exact Or.inl h3
    · exact Or.inr ⟨h1, h3.symm, h3 ▸ h2⟩
  · exact Or.inl h

lemma foldl_keysStep_nodup (txns : List Txn) :
    ∀ ks : List String, ks.Nodup → (txns.foldl keysStep ks).Nodup := by
  induction txns with
  | nil => intro ks h; exact h
  | cons t ts ih => intro ks h; exact ih _ (keysStep_nodup ks t h)

lemma mem_foldl_keysStep (txns : List Txn) :
    ∀ (ks : List String) (x : String), x ∈ txns.foldl keysStep ks →
      x ∈ ks ∨ ∃ t ∈ txns, lowerStr t.txType ≠ "erc20" ∧
        t.contractAddress = x ∧ x ≠ "" := by
  induction txns with
  | nil => intro ks x h; exact Or.inl h
  | cons t ts ih =>
    intro ks x h
    rcases ih _ x h with h2 | ⟨u, hu, hcond⟩
    · rcases mem_keysStep ks t x h2 with h3 | h3
      · exact Or.inl h3
      · exact Or.inr ⟨t, List.mem_cons_self t ts, h3⟩
    · exact Or.inr ⟨u, List.mem_cons_of_mem t hu, hcond⟩

lemma contractKeys_nodup (txns : List Txn) : (contractKeys txns).Nodup :=
  foldl_keysStep_nodup txns [] List.nodup_nil

lemma mem_contractKeys (txns : List Txn) (x : String)
    (h : x ∈ contractKeys txns) :
    ∃ t ∈ txns, lowerStr t.txType ≠ "erc20" ∧ t.contractAddress = x ∧ x ≠ "" := by
  rcases mem_foldl_keysStep txns [] x h with h2 | h2
  · exact absurd h2 (List.not_mem_nil x)
  · exact h2

lemma statsMap_lookup_not_mem (oracle : String → FetchResult) :
    ∀ (uncached : List String) (cid : String), cid ∉ uncached →
      (statsMapOf oracle uncached).lookup cid = none := by
  intro uncached
  induction uncached with
  | nil => intro cid h; rfl
  | cons c cs ih =>
    intro cid h
    have hne : cid ≠ c := fun he => h (he ▸ List.mem_cons_self c cs)
    have htail : cid ∉ cs := fun ht => h (List.mem_cons_of_mem c ht)
    unfold statsMapOf
    simp only [List.map_cons, List.lookup, beq_eq_false_iff_ne.mpr hne]
    exact ih cid htail

lemma smGet_not_mem (oracle : String → FetchResult) (uncached : List String)
    (cid : String) (h : cid ∉ uncached) :
    smGet (statsMapOf oracle uncached) cid = none := by
  unfold smGet
  rw [statsMap_lookup_not_mem oracle uncached cid h]
  rfl

lemma firstPassTxn_contract (t : Txn) :
    (firstPassTxn t).contractAddress = t.contractAddress := by
  unfold firstPassTxn setDefaultNftFields
  split_ifs <;> rfl

/-! ### C3 theorems -/

/-- C3: once a contract address's collection id is in the process-wide
negative cache, enrichment — single-record or batch — assigns all-zero NFT
fields to every record referencing that address and issues no network call
for it; the cache is add-only (both functions only ever grow it, so the
property persists for the life of the process); and a 404 response always
inserts the queried id into the cache (single-record path directly, batch
path for every fetched id whose response is a 404). -/
theorem claim_C3_negative_cache :
    (∀ (oracle : String → FetchResult) (cache : List String) (t : Txn),
      mkCid t.contractAddress ∈ cache →
      enrich_transaction_with_nft_data oracle cache t =
        (setDefaultNftFields t, cache, [])) ∧
    (∀ (oracle : String → FetchResult) (cache : List String) (t : Txn),
      t.contractAddress ≠ "" → mkCid t.contractAddress ∉ cache →
      oracle (mkCid t.contractAddress) = .notFound →
      (enrich_transaction_with_nft_data oracle cache t).2.1 =
        cacheAdd cache (mkCid t.contractAddress) ∧
      mkCid t.contractAddress ∈
        (enrich_transaction_with_nft_data oracle cache t).2.1) ∧
    (∀ (oracle : String → FetchResult) (cache : List String) (t : Txn)
      (x : String), x ∈ cache →
      x ∈ (enrich_transaction_with_nft_data oracle cache t).2.1) ∧
    (∀ (oracle : String → FetchResult) (cache : List String) (txns : List Txn)
      (addr : String), addr ≠ "" → mkCid addr ∈ cache →
      mkCid addr ∉ (enrich_transactions_with_nft_data oracle cache txns).2.2 ∧
      ∀ (i : ℕ) (t : Txn), txns.get? i = some t → t.contractAddress = addr →
        ∃ u, (enrich_transactions_with_nft_data oracle cache txns).1.get? i =
          some u ∧ hasZeroNftFields u) ∧
    (∀ (oracle : String → FetchResult) (cache : List String) (txns : List Txn)
      (x : String), x ∈ cache →
      x ∈ (enrich_transactions_with_nft_data oracle cache txns).2.1) ∧
    (∀ (oracle : String → FetchResult) (cache : List String) (txns : List Txn)
      (cid : String),
      cid ∈ (enrich_transactions_with_nft_data oracle cache txns).2.2 →
      oracle cid = .notFound →
      cid ∈ (enrich_transactions_with_nft_data oracle cache txns).2.1) := by
  refine ⟨?_, ?_, ?_, ?_, ?_, ?_⟩
  · intro oracle cache t h
    unfold enrich_transaction_with_nft_data
    dsimp only
    split_ifs with h1 h2
    · rfl
    · rfl
  · intro oracle cache t hne hnotin horacle
    unfold enrich_transaction_with_nft_data
    dsimp only
    rw [if_neg hne, if_neg hnotin, horacle]
    exact ⟨rfl, mem_cacheAdd_self cache _⟩
  · intro oracle cache t x h
    unfold enrich_transaction_with_nft_data
    dsimp only
    split_ifs with h1 h2
    · exact h
    · exact h
    · cases oracle (mkCid t.contractAddress) with
      | notFound => exact cacheAdd_mem_of_mem _ _ _ h
      | found stats => exact h
      | failed => exact h
  · intro oracle cache txns addr haddr hcache
    unfold enrich_transactions_with_nft_data
    dsimp only
    split_ifs with hemp
    · refine ⟨by simp, ?_⟩
      intro i t hget
      rw [List.isEmpty_iff] at hemp
      subst hemp
      simp at hget
    · constructor
      · intro hmem
        have h2 := (List.mem_filter.mp hmem).2
        simp only [decide_eq_true_eq] at h2
        exact h2 hcache
      · intro i t hget hcontract
        have hget1 : (txns.map firstPassTxn).get? i = some (firstPassTxn t) := by
          rw [List.get?_map, hget]
          rfl
        have hfc : (firstPassTxn t).contractAddress = addr := by
          rw [firstPassTxn_contract]
          exact hcontract
        have hc1 : mkCid addr ∈ cacheAfterMapping oracle cache
            (((contractKeys txns).map mkCid).filter fun cid =>
              decide (cid ∉ cache)) :=
          cacheAfterMapping_mem_of_mem oracle _ cache _ hcache
        exact applyLoop_zero_of_cached _ addr haddr _ _ hc1 i _ hget1 hfc
  · intro oracle cache txns x h
    unfold enrich_transactions_with_nft_data
    dsimp only
    split_ifs with hemp
    · exact h
    · exact applyLoop_cache_mono _ _ _ x
        (cacheAfterMapping_mem_of_mem oracle _ cache x h)
  · intro oracle cache txns cid hmem horacle
    unfold enrich_transactions_with_nft_data at hmem ⊢
    dsimp only at hmem ⊢
    split_ifs at hmem ⊢ with hemp
    · simp at hmem
    · exact applyLoop_cache_mono _ _ _ cid
        (cacheAfterMapping_mem_notFound oracle _ _ cid hmem horacle)

/-- C3 witness: with the collection id of contract `0xc` already in the
negative cache, the single-record enrichment zeroes the NFT fields,
issues no call and leaves the cache unchanged. -/
theorem claim_C3_witness :
    enrich_transaction_with_nft_data (fun _ => .notFound) ["ETHEREUM:0xc"]
      { contractAddress := "0xc" } =
      (setDefaultNftFields { contractAddress := "0xc" }, ["ETHEREUM:0xc"], []) :=
  claim_C3_negative_cache.1 (fun _ => .notFound) ["ETHEREUM:0xc"]
    { contractAddress := "0xc" } (by decide)

/-! ### C2 theorems -/

lemma nodup_subset_length_le_dedup (l1 l2 : List String) (h1 : l1.Nodup)
    (hs : ∀ x ∈ l1, x ∈ l2) : l1.length ≤ l2.dedup.length := by
  have ha : l1.toFinset.card = l1.length := List.toFinset_card_of_nodup h1
  have hb : l1.toFinset ⊆ l2.toFinset := by
    intro x hx
    simp only [List.mem_toFinset] at hx ⊢
    exact hs x hx
  have hc := Finset.card_le_card hb
  rw [ha, List.card_toFinset] at hc
  exact hc

lemma firstPassTxn_erc20 (t : Txn) (h : lowerStr t.txType = "erc20") :
    firstPassTxn t = setDefaultNftFields t := by
  unfold firstPassTxn
  rw [if_pos h]

/-- The ERC-20 record of the C2 counterexample. -/
def c2erc20 : Txn := { txType := "erc20", contractAddress := "0xc" }

/-- The ERC-721 record of the C2 counterexample, referencing the same
contract. -/
def c2erc721 : Txn := { txType := "erc721", contractAddress := "0xc" }

/-- An upstream that knows every collection, with 5 owners. -/
def c2oracle : String → FetchResult := fun _ => .found { owners := 5 }

/-- C2 (counterexample): enriching an ERC-20 record and an ERC-721 record
that share one contract address issues the lookup for the ERC-721 record,
but the application loop then writes the fetched statistics into the
ERC-20 record too — its `nft_num_owners` ends at 5, not 0, so ERC-20
records are not excluded from enrichment entirely. -/
theorem claim_C2_counterexample :
    lowerStr c2erc20.txType = "erc20" ∧
    ((enrich_transactions_with_nft_data c2oracle [] [c2erc20, c2erc721]).1.getD 0
      c2erc20).nftNumOwners = 5 ∧ (5 : ℚ) ≠ 0 := by
  refine ⟨by decide, ?_, by decide⟩
  decide

/-- C2 (amended): the batch enrichment issues at most K network calls for
N records referencing K unique non-empty contract addresses; every issued
call is for a contract referenced by some non-ERC-20 record (so ERC-20
records on their own cause no lookups); and an ERC-20 record whose
contract address is not also referenced by a non-ERC-20 record ends with
all-zero NFT fields.  (An ERC-20 record sharing its contract with a
non-ERC-20 record receives that contract's fetched statistics in the
application loop, which is what the counterexample exhibits.) -/
theorem claim_C2_amended (oracle : String → FetchResult) (cache : List String)
    (txns : List Txn) :
    ((enrich_transactions_with_nft_data oracle cache txns).2.2).length ≤
      (((txns.map fun t => t.contractAddress).filter fun a =>
        a ≠ "").dedup).length ∧
    (∀ cid ∈ (enrich_transactions_with_nft_data oracle cache txns).2.2,
      ∃ t ∈ txns, lowerStr t.txType ≠ "erc20" ∧ t.contractAddress ≠ "" ∧
        cid = mkCid t.contractAddress) ∧
    (∀ (i : ℕ) (t : Txn), txns.get? i = some t → lowerStr t.txType = "erc20" →
      t.contractAddress ∉ contractKeys txns →
      ∃ u, (enrich_transactions_with_nft_data oracle cache txns).1.get? i =
        some u ∧ hasZeroNftFields u) := by
  refine ⟨?_, ?_, ?_⟩
  · unfold enrich_transactions_with_nft_data
    dsimp only
    split_ifs with hemp
    · simp
    · calc ((((contractKeys txns).map mkCid).filter fun cid =>
            decide (cid ∉ cache)).length)
          ≤ ((contractKeys txns).map mkCid).length :=
            List.length_filter_le _ _
        _ = (contractKeys txns).length := List.length_map _ _
        _ ≤ (((txns.map fun t => t.contractAddress).filter fun a =>
              a ≠ "").dedup).length := by
            apply nodup_subset_length_le_dedup _ _ (contractKeys_nodup txns)
            intro x hx
            rcases mem_contractKeys txns x hx with ⟨t, ht, _, hcontract, hne⟩
            rw [List.mem_filter]
            exact ⟨List.mem_map.mpr ⟨t, ht, hcontract⟩, by simpa using hne⟩
  · intro cid hmem
    unfold enrich_transactions_with_nft_data at hmem
    dsimp only at hmem
    split_ifs at hmem with hemp
    · simp at hmem
    · have h1 := (List.mem_filter.mp hmem).1
      rcases List.mem_map.mp h1 with ⟨k, hk, hkc⟩
      rcases mem_contractKeys txns k hk with ⟨t, ht, htype, hcontract, hne⟩
      exact ⟨t, ht, htype, hcontract ▸ hne, by rw [← hkc, hcontract]⟩
  · intro i t hget htype hnotkey
    unfold enrich_transactions_with_nft_data
    dsimp only
    split_ifs with hemp
    · rw [List.isEmpty_iff] at hemp
      subst hemp
      simp at hget
    · have hget1 : (txns.map firstPassTxn).get? i = some (firstPassTxn t) := by
        rw [List.get?_map, hget]
        rfl
      have hzero : hasZeroNftFields (firstPassTxn t) := by
        rw [firstPassTxn_erc20 t htype]
        exact hasZero_setDefault t
      have hlook : smGet (statsMapOf oracle
          (((contractKeys txns).map mkCid).filter fun cid =>
            decide (cid ∉ cache))) (mkCid (firstPassTxn t).contractAddress) =
          none := by
        apply smGet_not_mem
        intro hmem
        have h1 := (List.mem_filter.mp hmem).1
        rcases List.mem_map.mp h1 with ⟨k, hk, hkc⟩
        rw [firstPassTxn_contract] at hkc
        exact hnotkey (mkCid_inj hkc ▸ hk)
      exact applyLoop_zero_elem _ _ _ i _ hget1 hzero hlook

/-- C2 witness: on the two-record counterexample batch, at most one call
is issued (the two records share one contract), and an ERC-20-only batch
record keeps zero NFT fields. -/
theorem claim_C2_witness :
    ((enrich_transactions_with_nft_data c2oracle [] [c2erc20, c2erc721]).2.2).length ≤
      ((([c2erc20, c2erc721].map fun t => t.contractAddress).filter fun a =>
        a ≠ "").dedup).length ∧
    ∃ u, (enrich_transactions_with_nft_data c2oracle [] [c2erc20]).1.get? 0 =
      some u ∧ hasZeroNftFields u :=
  ⟨(claim_C2_amended c2oracle [] [c2erc20, c2erc721]).1,
   (claim_C2_amended c2oracle [] [c2erc20]).2.2 0 c2erc20 rfl (by decide)
     (by decide)⟩

/-! ## `detect.py` routers: caller-contract validation -/

/-- A FastAPI `HTTPException`, by status code and detail. -/
structure HTTPError where
  statusCode : ℕ
  detail : String
deriving DecidableEq

/-- The body of `/detect/account` (`DetectIn`). -/
structure DetectIn where
  accountAddress : String := ""
  explain : Bool := false
  explainWithLlm : Bool := false
  maxTransactions : ℕ := 1000
deriving DecidableEq

/-- What `_handle_account_detection` does before any I/O: either the
llm-without-explain rejection, or the `detect_account` service invocation
with the request's parameters. -/
inductive AccountOutcome where
  | rejected (e : HTTPError)
  | serviceCalled (address : String) (explain llm : Bool) (maxTxns : ℕ)
deriving DecidableEq

/-- Function `_handle_account_detection`: `if body.explain_with_llm and not
body.explain: raise HTTPException(400, ...)`, else call the service. -/
def handle_account_detection (b : DetectIn) : AccountOutcome :=
  if b.explainWithLlm && !b.explain then
    .rejected ⟨400, "explain must be True when explain_with_llm is True"⟩
  else
    .serviceCalled b.accountAddress b.explain b.explainWithLlm b.maxTransactions

/-- The body of `/detect/transaction` (`DetectTransactionIn`): an optional
hash for the by-hash mode, the pending-transaction fields, and the two
explanation flags (both default True). -/
structure DetectTransactionIn where
  transactionHash : Option String := none
  body : PendingBody := {}
  explain : Bool := true
  explainWithLlm : Bool := true
deriving DecidableEq

/-- What `detect_transaction` (the router) does with a request: fetch by
hash, analyze the pending transaction, or reject for missing parameters.
There is no llm-without-explain check on this path. -/
inductive TransactionOutcome where
  | rejected (e : HTTPError)
  | fetchedByHash (txHash : String) (explain llm : Bool)
  | pendingAnalyzed (txn : Txn) (explain llm : Bool)
deriving DecidableEq

/-- The mode dispatch of the `detect_transaction` router: `if
body.transaction_hash: ... elif body.from_address and body.to_address:
... else: raise HTTPException(400, ...)`. -/
def detect_transaction_route (b : DetectTransactionIn) (now : ℤ) :
    TransactionOutcome :=
  let pendingOrReject :=
    if b.body.fromAddress ≠ "" ∧ b.body.toAddress ≠ "" then
      .pendingAnalyzed (buildPendingTxn b.body now) b.explain b.explainWithLlm
    else
      .rejected ⟨400,
        "Either transaction_hash or from_address + to_address must be provided"⟩
  match b.transactionHash with
  | some h => if h ≠ "" then .fetchedByHash h b.explain b.explainWithLlm
              else pendingOrReject
  | none => pendingOrReject

/-- Whether a router outcome is a rejection. -/
def isRejected : TransactionOutcome → Bool
  | .rejected _ => true
  | _ => false

/-- Service `DetectionService.detect_transaction` computes the base explanation
whenever either flag is set (`if explain or explain_with_llm:`). -/
def serviceComputesBaseExplanation (explain llm : Bool) : Bool :=
  explain || llm

/-! ### C8 theorems -/

/-- The transaction request of the C8 counterexample: LLM explanation
requested without the base explanation, valid pending fields. -/
def c8Body : DetectTransactionIn :=
  { transactionHash := none,
    body := { fromAddress := "0xa", toAddress := "0xb" },
    explain := false, explainWithLlm := true }

/-- C8 (counterexample): the transaction detection flow accepts a request
with `explain_with_llm = True` and `explain = False` — it is dispatched to
the pending-transaction analysis, not rejected, and the service then
computes the base explanation anyway. -/
theorem claim_C8_counterexample :
    c8Body.explainWithLlm = true ∧ c8Body.explain = false ∧
    isRejected (detect_transaction_route c8Body 0) = false ∧
    serviceComputesBaseExplanation c8Body.explain c8Body.explainWithLlm = true := by
  refine ⟨rfl, rfl, ?_, rfl⟩
  decide

/-- C8 (amended): only the account detection flow rejects
llm-without-explain — `_handle_account_detection` raises a 400 before
invoking the service, and otherwise invokes it; the transaction flow never
rejects a well-formed request for its flags (a request with a hash, or
with both pending addresses, proceeds regardless of the flag combination),
and its service computes the base explanation whenever either flag is
set. -/
theorem claim_C8_amended (b : DetectIn) (bt : DetectTransactionIn) (now : ℤ) :
    (b.explainWithLlm = true → b.explain = false →
      handle_account_detection b =
        .rejected ⟨400, "explain must be True when explain_with_llm is True"⟩) ∧
    ((b.explainWithLlm = true → b.explain = true) →
      handle_account_detection b =
        .serviceCalled b.accountAddress b.explain b.explainWithLlm
          b.maxTransactions) ∧
    (∀ h : String, bt.transactionHash = some h → h ≠ "" →
      isRejected (detect_transaction_route bt now) = false) ∧
    (bt.transactionHash = none → bt.body.fromAddress ≠ "" →
      bt.body.toAddress ≠ "" →
      isRejected (detect_transaction_route bt now) = false) ∧
    (∀ e l : Bool, serviceComputesBaseExplanation e l = (e || l)) := by
  refine ⟨?_, ?_, ?_, ?_, fun e l => rfl⟩
  · intro hllm hexp
    unfold handle_account_detection
    rw [if_pos (by rw [hllm, hexp]; rfl)]
  · intro himp
    unfold handle_account_detection
    rw [if_neg]
    intro hcond
    rw [Bool.and_eq_true, Bool.not_eq_true'] at hcond
    rw [himp hcond.1] at hcond
    simp at hcond
  · intro h hhash hne
    unfold detect_transaction_route
    rw [hhash]
    dsimp only
    rw [if_pos hne]
    rfl
  · intro hhash hfrom hto
    unfold detect_transaction_route
    rw [hhash]
    dsimp only
    rw [if_pos ⟨hfrom, hto⟩]
    rfl

/-- C8 witness: the account flow rejects llm-without-explain at a concrete
request, and the transaction flow passes the counterexample request
through to pending analysis. -/
theorem claim_C8_witness :
    handle_account_detection { explainWithLlm := true } =
      .rejected ⟨400, "explain must be True when explain_with_llm is True"⟩ ∧
    isRejected (detect_transaction_route c8Body 0) = false :=
  ⟨(claim_C8_amended { explainWithLlm := true } c8Body 0).1 rfl rfl,
   (claim_C8_amended { explainWithLlm := true } c8Body 0).2.2.2.1 rfl
     (by decide) (by decide)⟩

end ScamRadar
